import Mathlib

/-!
# Verification of the gym_planner_mongo repository

Shallow embedding, in Lean 4, of the parts of the `gym_planner_mongo` Flask
application that the specification's claims are about:

* `progress_handler.get_progress_data` (weekly volume aggregation and
  per-exercise max-weight progression),
* `monthly_handler.get_monthly_plan_context` (calendar-grid construction),
* the workout-day mutations in `app.py` (`edit_workout_day`,
  `add_exercise_to_day`, `copy_day`, `copy_last_week`, `toggle_set_completion`,
  `toggle_task_completion`, `delete_task`),
* `goal_setting_handler.set_exercise_goal`,
* `exercise_handler.delete_exercise_from_library`.

MongoDB collections are modelled as Lean lists of documents; the pymongo calls
(`update_one`, `find_one_and_update`/`find_one_and_replace` with `upsert=True`,
`delete_one`, `delete_many`, `insert_many`) are modelled by their documented
semantics as list transformations.  Python's dynamic field values (the
`weight_kg` / `actual_reps` strings stored in set documents) are modelled by
the inductive type `PyVal`, together with executable models of Python's
`float(...)` and `int(...)` conversions, and `datetime.fromisoformat` on
`YYYY-MM-DD` strings.  Dates are represented by their proleptic-Gregorian
ordinal (`date.toordinal` in Python: day 1 is 0001-01-01, a Monday), so that
`date.weekday()` is `(ordinal - 1) % 7`.
-/

namespace GymPlanner

/-! ## Python values and numeric conversions

A `PyVal` is a value as it can appear in a `weight_kg` / `actual_reps` field of
a set document: an int, a float (modelled as a rational), a string, or `None`.
`pyFloat` and `pyInt` model Python's `float(v)` and `int(v)` conversions,
returning `none` where Python raises `ValueError`/`TypeError`.  The string
parsers cover plain decimal literals with an optional sign (the forms this
application can store); exotic accepted forms (exponents, `inf`, `nan`,
underscores, surrounding whitespace) are not modelled.
-/

inductive PyVal where
  | pint (n : Int)
  | pfloat (q : ℚ)
  | pstr (s : String)
  | pnone
  deriving DecidableEq, Repr

/-- The numeric value of a list of decimal digit characters. -/
def digitsVal (l : List Char) : Nat :=
  l.foldl (fun a c => 10 * a + (c.toNat - 48)) 0

/-- Parse a non-empty all-digit character list as a natural number. -/
def parseNatDigits (l : List Char) : Option Nat :=
  if l ≠ [] ∧ l.all (·.isDigit) then some (digitsVal l) else none

/-- Parse an unsigned decimal float literal (`"12"`, `"12.5"`, `"12."`,
`".5"`), as accepted by Python's `float`. -/
def parseUFloat (l : List Char) : Option ℚ :=
  let ip := l.takeWhile (· ≠ '.')
  match l.dropWhile (· ≠ '.') with
  | [] => (parseNatDigits ip).map (fun n => (n : ℚ))
  | '.' :: fp =>
    if fp.all (·.isDigit) ∧ ip.all (·.isDigit) ∧ ¬(ip = [] ∧ fp = []) then
      some ((digitsVal ip : ℚ) + (digitsVal fp : ℚ) / ((10 : ℚ) ^ fp.length))
    else none
  | _ :: _ => none

/-- Python `float(s)` on a string: optional sign, then an unsigned decimal
literal; `none` models a raised `ValueError`. -/
def parseFloatStr (s : String) : Option ℚ :=
  match s.toList with
  | '-' :: rest => (parseUFloat rest).map (fun q => -q)
  | '+' :: rest => parseUFloat rest
  | l => parseUFloat l

/-- Python `int(s)` on a string: optional sign, then digits only (a float
literal such as `"2.5"` raises); `none` models a raised `ValueError`. -/
def parseIntStr (s : String) : Option Int :=
  match s.toList with
  | '-' :: rest => (parseNatDigits rest).map (fun n => -(n : Int))
  | '+' :: rest => (parseNatDigits rest).map (fun n => (n : Int))
  | l => (parseNatDigits l).map (fun n => (n : Int))

/-- Python `float(v)`: ints and floats convert, strings are parsed,
`float(None)` raises `TypeError`. -/
def pyFloat : PyVal → Option ℚ
  | .pint n => some (n : ℚ)
  | .pfloat q => some q
  | .pstr s => parseFloatStr s
  | .pnone => none

/-- Python `int(v)`: ints convert, floats truncate toward zero (`Int.tdiv` on
the reduced fraction), strings are parsed as integer literals, `int(None)`
raises `TypeError`. -/
def pyInt : PyVal → Option Int
  | .pint n => some n
  | .pfloat q => some (Int.tdiv q.num (q.den : Int))
  | .pstr s => parseIntStr s
  | .pnone => none

/-! ## Dates

A date is represented by its proleptic-Gregorian ordinal, exactly
`datetime.date.toordinal()` in Python: ordinal 1 is 0001-01-01.  Python's
`date.weekday()` (0 = Monday … 6 = Sunday) is then `(ordinal - 1) % 7`.
-/

/-- Gregorian leap-year test. -/
def isLeap (y : Nat) : Bool :=
  y % 4 == 0 && (y % 100 != 0 || y % 400 == 0)

/-- Number of days in month `m` of year `y` (months are 1-based). -/
def daysInMonth (y m : Nat) : Nat :=
  if m = 2 then (if isLeap y then 29 else 28)
  else if m = 4 ∨ m = 6 ∨ m = 9 ∨ m = 11 then 30
  else 31

/-- Number of days in the years strictly before year `y`. -/
def daysBeforeYear (y : Nat) : Nat :=
  365 * (y - 1) + (y - 1) / 4 + (y - 1) / 400 - (y - 1) / 100

/-- Number of days of year `y` strictly before month `m`. -/
def daysBeforeMonth (y m : Nat) : Nat :=
  (List.range (m - 1)).foldl (fun a i => a + daysInMonth y (i + 1)) 0

/-- `date(y, m, d).toordinal()`: 0001-01-01 is day 1. -/
def toOrdinal (y m d : Nat) : Nat :=
  daysBeforeYear y + daysBeforeMonth y m + d

/-- `date.fromordinal(o).weekday()`: 0 = Monday … 6 = Sunday. -/
def weekday (o : Nat) : Nat :=
  (o - 1) % 7

/-- `d - timedelta(days=d.weekday())`: the Monday on or before `d`. -/
def startOfWeek (o : Nat) : Nat :=
  o - weekday o

/-- `datetime.fromisoformat(s)` restricted to the `YYYY-MM-DD` date form this
application stores (`date.isoformat()` output); any other string is rejected
(`none` models a raised `ValueError`).  The result is the date's ordinal. -/
def parseIsoDate (s : String) : Option Nat :=
  match s.toList with
  | [y1, y2, y3, y4, '-', m1, m2, '-', d1, d2] =>
    if ([y1, y2, y3, y4, m1, m2, d1, d2]).all (·.isDigit) then
      let y := digitsVal [y1, y2, y3, y4]
      let m := digitsVal [m1, m2]
      let d := digitsVal [d1, d2]
      if 1 ≤ y ∧ 1 ≤ m ∧ m ≤ 12 ∧ 1 ≤ d ∧ d ≤ daysInMonth y m then
        some (toOrdinal y m d)
      else none
    else none
  | _ => none

/-! ## Document model

`SetDoc`, `TaskDoc` model the embedded set/task documents of a `workout_days`
document.  `ObjectId`s are modelled as natural numbers.  Set documents are
created by `add_exercise_to_day` / `edit_exercise` with all fields present
(`weight_kg = ""`, `actual_reps = ""`), but `get_progress_data` reads them with
`s.get(..., 0)`, so the two value fields are `Option PyVal` with the read
defaulting to the Python int `0` when absent.  A task's `completed` field does
not exist until the `/toggle-task` endpoint first writes it, hence
`Option Bool`; a set's `completed` field is always present.
-/

structure SetDoc where
  sid : Nat
  setNumber : Nat
  completed : Bool
  weight_kg : Option PyVal
  actual_reps : Option PyVal
  deriving DecidableEq, Repr

structure TaskDoc where
  tid : Nat
  exerciseId : Nat
  exerciseName : Option String
  targetReps : String
  restTime : String
  notes : String
  completed : Option Bool
  sets : List SetDoc
  deriving DecidableEq, Repr

/-- `task.get('exercise_name')` followed by Python truthiness: the task is
skipped when the field is absent or the empty string. -/
def TaskDoc.nameFalsy (t : TaskDoc) : Bool :=
  match t.exerciseName with
  | none => true
  | some s => s = ""

/-- `s.get('weight_kg', 0)`. -/
def SetDoc.weightVal (s : SetDoc) : PyVal :=
  s.weight_kg.getD (PyVal.pint 0)

/-- `s.get('actual_reps', 0)`. -/
def SetDoc.repsVal (s : SetDoc) : PyVal :=
  s.actual_reps.getD (PyVal.pint 0)

/-- A `workout_days` document as read by `get_progress_data`: the raw `date`
string and the `tasks` array (the other fields are not consulted). -/
structure ProgressDoc where
  date : String
  tasks : List TaskDoc
  deriving DecidableEq, Repr

/-! ## Weekly volume aggregation (`get_progress_data`, part 1)

```python
day_volume = 0
for task in workout.get('tasks', []):
    for s in task.get('sets', []):
        try:
            weight = float(s.get('weight_kg', 0))
            reps = int(s.get('actual_reps', 0))
            if weight > 0 and reps > 0:
                day_volume += weight * reps
        except (ValueError, TypeError):
            continue
weekly_volume[week_label] += day_volume
```

The `try`/`except` around the two conversions means a set whose weight fails
`float` or whose reps fail `int` contributes nothing; otherwise the product is
added exactly when both values are strictly positive.  The enclosing
`try`/`except` around `datetime.fromisoformat(workout['date'])` skips the whole
workout when the date string fails to parse.  `weekly_volume` is a
`defaultdict(float)` keyed by the week's Monday; it is modelled as a total
function from the Monday's ordinal to the accumulated volume (absent keys map
to `0`).
-/

/-- Contribution of one set document to `day_volume`. -/
def setVolume (s : SetDoc) : ℚ :=
  match pyFloat s.weightVal with
  | none => 0
  | some w =>
    match pyInt s.repsVal with
    | none => 0
    | some r => if 0 < w ∧ 0 < r then w * (r : ℚ) else 0

/-- `day_volume` for one workout's task list. -/
def dayVolume (tasks : List TaskDoc) : ℚ :=
  tasks.foldl (fun a t => t.sets.foldl (fun b s => b + setVolume s) a) 0

/-- One iteration of the weekly-volume loop: parse the workout's date, skip the
workout on failure, otherwise add `day_volume` at the week's Monday. -/
def addWorkoutVolume (acc : Nat → ℚ) (w : ProgressDoc) : Nat → ℚ :=
  match parseIsoDate w.date with
  | none => acc
  | some o => fun k => if k = startOfWeek o then acc k + dayVolume w.tasks else acc k

/-- The `weekly_volume` table computed by `get_progress_data`. -/
def weeklyVolume (ws : List ProgressDoc) : Nat → ℚ :=
  ws.foldl addWorkoutVolume (fun _ => 0)

/-! ## Per-exercise max-weight progression (`get_progress_data`, part 2)

```python
exercise_progression = defaultdict(lambda: defaultdict(float))
for workout in workouts:
    for task in workout.get('tasks', []):
        exercise_name = task.get('exercise_name')
        if not exercise_name:
            continue
        max_weight_for_day = 0
        for s in task.get('sets', []):
            try:
                max_weight_for_day = max(max_weight_for_day, float(s.get('weight_kg', 0)))
            except (ValueError, TypeError):
                continue
        if max_weight_for_day > exercise_progression[exercise_name][workout['date']]:
            exercise_progression[exercise_name][workout['date']] = max_weight_for_day
```

Indexing a `defaultdict` *creates* the entry: evaluating the comparison on the
right inserts `exercise_progression[name][date] = 0.0` whenever it is absent,
even when the subsequent assignment does not run.  The nested dictionaries are
modelled by a partial map `String × String → Option ℚ` (key present with value
`v` ↦ `some v`, absent ↦ `none`); `progAccess` models the creating read and
`progAssign` the assignment.  The `date` string is used raw as the inner key
(this part of the code never parses it).
-/

/-- The nested `exercise_progression` dictionaries, as a partial map from
(exercise name, raw date string) to the stored float. -/
def Prog : Type := String × String → Option ℚ

/-- `exercise_progression[name][date]` as a *read*: returns the map after the
defaultdict inserted missing keys with `0.0`, and the value read. -/
def progAccess (m : Prog) (k : String × String) : Prog × ℚ :=
  match m k with
  | some v => (m, v)
  | none => (fun k' => if k' = k then some 0 else m k', 0)

/-- `exercise_progression[name][date] = v`. -/
def progAssign (m : Prog) (k : String × String) (v : ℚ) : Prog :=
  fun k' => if k' = k then some v else m k'

/-- `max_weight_for_day` for a task's sets. -/
def maxWeightForDay (sets : List SetDoc) : ℚ :=
  sets.foldl
    (fun cur s =>
      match pyFloat s.weightVal with
      | none => cur
      | some w => max cur w) 0

/-- One iteration of the progression loop over a task of a workout dated
`d`. -/
def progTask (d : String) (m : Prog) (t : TaskDoc) : Prog :=
  if t.nameFalsy then m
  else
    match t.exerciseName with
    | none => m
    | some n =>
      let mw := maxWeightForDay t.sets
      let p := progAccess m (n, d)
      if p.2 < mw then progAssign p.1 (n, d) mw else p.1

/-- The progression loop over one workout document. -/
def progWorkout (m : Prog) (w : ProgressDoc) : Prog :=
  w.tasks.foldl (progTask w.date) m

/-- The `exercise_progression` table computed by `get_progress_data`. -/
def exerciseProgression (ws : List ProgressDoc) : Prog :=
  ws.foldl progWorkout (fun _ => none)

/-! ## Basic lemmas about the volume aggregation -/

theorem foldl_add_setVolume (ss : List SetDoc) (b : ℚ) :
    ss.foldl (fun b s => b + setVolume s) b = b + (ss.map setVolume).sum := by
  induction ss generalizing b with
  | nil => simp
  | cons s rest ih => simp [ih, add_assoc]

theorem dayVolume_eq_sum (ts : List TaskDoc) :
    dayVolume ts = (ts.map (fun t => (t.sets.map setVolume).sum)).sum := by
  unfold dayVolume
  suffices h : ∀ a : ℚ, ts.foldl (fun a t => t.sets.foldl (fun b s => b + setVolume s) a) a
      = a + (ts.map (fun t => (t.sets.map setVolume).sum)).sum by
    simpa using h 0
  induction ts with
  | nil => simp
  | cons t rest ih =>
    intro a
    rw [List.foldl_cons, ih, foldl_add_setVolume, List.map_cons, List.sum_cons,
      add_assoc]

theorem setVolume_of_pos (s : SetDoc) (w : ℚ) (r : Int)
    (hw : pyFloat s.weightVal = some w) (hr : pyInt s.repsVal = some r)
    (hwpos : 0 < w) (hrpos : 0 < r) : setVolume s = w * (r : ℚ) := by
  unfold setVolume
  rw [hw, hr]
  simp [hwpos, hrpos]

theorem setVolume_of_parse_failure (s : SetDoc)
    (h : pyFloat s.weightVal = none ∨ pyInt s.repsVal = none) : setVolume s = 0 := by
  unfold setVolume
  rcases h with h | h
  · rw [h]
  · rw [h]
    cases pyFloat s.weightVal <;> simp

theorem setVolume_of_nonpos (s : SetDoc) (w : ℚ) (r : Int)
    (hw : pyFloat s.weightVal = some w) (hr : pyInt s.repsVal = some r)
    (h : ¬(0 < w ∧ 0 < r)) : setVolume s = 0 := by
  unfold setVolume
  rw [hw, hr]
  simp [h]

/-! ## Concrete example for C1

A workout day dated Wednesday 2024-01-03 (its week's Monday is 2024-01-01),
with two tasks holding one set each: `{weight: 100, reps: 5}` and
`{weight: 0, reps: 5}`. -/

def c1Set (i : Nat) (w r : Int) : SetDoc :=
  { sid := i, setNumber := 1, completed := false,
    weight_kg := some (PyVal.pint w), actual_reps := some (PyVal.pint r) }

def c1Task (i : Nat) (s : SetDoc) : TaskDoc :=
  { tid := i, exerciseId := 1, exerciseName := some "Bench Press",
    targetReps := "5", restTime := "", notes := "", completed := none,
    sets := [s] }

def c1Doc : ProgressDoc :=
  { date := "2024-01-03",
    tasks := [c1Task 10 (c1Set 11 100 5), c1Task 20 (c1Set 21 0 5)] }

/-- C1: for every set of every task of every processed workout day, the weekly
volume total includes the term `weight * reps` exactly when `weight_kg` parses
as a number `> 0` and `actual_reps` parses as an integer `> 0`; a set whose
`weight_kg` or `actual_reps` fails to parse contributes `0` and raises no
error; and the concrete day with sets `{weight:100, reps:5}`,
`{weight:0, reps:5}` contributes exactly `500` to its week's volume. -/
theorem volume_includes_term_iff_positive :
    (∀ ts : List TaskDoc,
        dayVolume ts = (ts.map (fun t => (t.sets.map setVolume).sum)).sum)
  ∧ (∀ (s : SetDoc) (w : ℚ) (r : Int),
        pyFloat s.weightVal = some w → pyInt s.repsVal = some r →
        0 < w → 0 < r → setVolume s = w * (r : ℚ))
  ∧ (∀ s : SetDoc,
        pyFloat s.weightVal = none ∨ pyInt s.repsVal = none → setVolume s = 0)
  ∧ (∀ (s : SetDoc) (w : ℚ) (r : Int),
        pyFloat s.weightVal = some w → pyInt s.repsVal = some r →
        ¬(0 < w ∧ 0 < r) → setVolume s = 0)
  ∧ dayVolume c1Doc.tasks = 500
  ∧ weeklyVolume [c1Doc] (toOrdinal 2024 1 1) = 500 := by
  refine ⟨dayVolume_eq_sum, setVolume_of_pos, setVolume_of_parse_failure,
    setVolume_of_nonpos, ?_, ?_⟩
  · norm_num [c1Doc, c1Task, c1Set, dayVolume, setVolume, SetDoc.weightVal,
      SetDoc.repsVal, pyFloat, pyInt]
  · have hd : parseIsoDate c1Doc.date = some 738888 := by decide
    have hs : startOfWeek 738888 = toOrdinal 2024 1 1 := by decide
    simp only [weeklyVolume, List.foldl, addWorkoutVolume, hd, hs]
    norm_num [c1Doc, c1Task, c1Set, dayVolume, setVolume, SetDoc.weightVal,
      SetDoc.repsVal, pyFloat, pyInt]

/-- Witness for C1: the theorem applied at the concrete sets of `c1Doc`. -/
theorem volume_includes_term_iff_positive_witness :
    setVolume (c1Set 11 100 5) = (100 : ℚ) * ((5 : Int) : ℚ)
  ∧ setVolume (c1Set 21 0 5) = 0
  ∧ setVolume { c1Set 11 100 5 with weight_kg := some (PyVal.pstr "abc") } = 0 := by
  have h100 : pyFloat (c1Set 11 100 5).weightVal = some 100 := by
    norm_num [c1Set, SetDoc.weightVal, pyFloat]
  have h0 : pyFloat (c1Set 21 0 5).weightVal = some 0 := by
    norm_num [c1Set, SetDoc.weightVal, pyFloat]
  have h5a : pyInt (c1Set 11 100 5).repsVal = some 5 := by
    norm_num [c1Set, SetDoc.repsVal, pyInt]
  have h5b : pyInt (c1Set 21 0 5).repsVal = some 5 := by
    norm_num [c1Set, SetDoc.repsVal, pyInt]
  have habc :
      pyFloat ({ c1Set 11 100 5 with weight_kg := some (PyVal.pstr "abc") } : SetDoc).weightVal
        = none := by
    decide
  exact ⟨volume_includes_term_iff_positive.2.1 _ 100 5 h100 h5a (by norm_num) (by norm_num),
    volume_includes_term_iff_positive.2.2.2.1 _ 0 5 h0 h5b (by norm_num),
    volume_includes_term_iff_positive.2.2.1 _ (Or.inl habc)⟩

/-- C8: a workout whose `date` string is not parseable contributes nothing to
the weekly volume aggregation; the remaining workouts' contributions are
unaffected and the aggregation is a total function (no exception escapes). -/
theorem malformed_date_workout_skipped (pre post : List ProgressDoc)
    (w : ProgressDoc) (hw : parseIsoDate w.date = none) :
    weeklyVolume (pre ++ w :: post) = weeklyVolume (pre ++ post) := by
  unfold weeklyVolume
  rw [List.foldl_append, List.foldl_append, List.foldl_cons]
  have h : addWorkoutVolume (pre.foldl addWorkoutVolume fun _ => 0) w
      = pre.foldl addWorkoutVolume fun _ => 0 := by
    unfold addWorkoutVolume
    rw [hw]
  rw [h]

/-- Witness for C8: a malformed-date workout between two well-formed ones is
skipped. -/
theorem malformed_date_workout_skipped_witness :
    parseIsoDate "not-a-date" = none
  ∧ weeklyVolume [c1Doc, { date := "not-a-date", tasks := c1Doc.tasks }, c1Doc]
      = weeklyVolume [c1Doc, c1Doc] := by
  exact ⟨by decide,
    malformed_date_workout_skipped [c1Doc] [c1Doc]
      { date := "not-a-date", tasks := c1Doc.tasks } (by decide)⟩

/-! ## Lemmas about the exercise progression table (C9)

Indexing the `defaultdict` in the comparison
`max_weight_for_day > exercise_progression[name][date]` creates the entry with
value `0.0` even when the guarded assignment does not run, so a task with a
non-empty name always leaves an entry for `(name, date)` behind. -/

theorem progAccess_fst_apply (m : Prog) (k k' : String × String) :
    (progAccess m k).1 k' = if k' = k then some (progAccess m k).2 else m k' := by
  unfold progAccess
  cases h : m k with
  | none => simp
  | some v =>
    by_cases hk : k' = k <;> simp [hk, h]

theorem nameFalsy_false (t : TaskDoc) (n : String) (hn : t.exerciseName = some n)
    (hne : n ≠ "") : t.nameFalsy = false := by
  unfold TaskDoc.nameFalsy
  rw [hn]
  simp [hne]

theorem progTask_apply_of_key_ne (d : String) (m : Prog) (t : TaskDoc)
    (k : String × String) (h : ∀ n, t.exerciseName = some n → (n, d) ≠ k) :
    progTask d m t k = m k := by
  unfold progTask
  cases hf : t.nameFalsy with
  | true => simp
  | false =>
    simp only [Bool.false_eq_true, if_false]
    cases hn : t.exerciseName with
    | none => rfl
    | some n =>
      have hk : (n, d) ≠ k := h n hn
      by_cases hlt : (progAccess m (n, d)).2 < maxWeightForDay t.sets
      · simp only [hlt, if_true, progAssign]
        rw [if_neg (fun he => hk he.symm), progAccess_fst_apply,
          if_neg (fun he => hk he.symm)]
      · simp only [hlt, if_false]
        rw [progAccess_fst_apply, if_neg (fun he => hk he.symm)]

theorem progTask_apply_isSome (d : String) (m : Prog) (t : TaskDoc)
    (k : String × String) (h : (m k).isSome) : ((progTask d m t) k).isSome := by
  unfold progTask
  cases hf : t.nameFalsy with
  | true => simpa using h
  | false =>
    simp only [Bool.false_eq_true, if_false]
    cases hn : t.exerciseName with
    | none => simpa using h
    | some n =>
      by_cases hlt : (progAccess m (n, d)).2 < maxWeightForDay t.sets
      · simp only [hlt, if_true, progAssign]
        by_cases hk : k = (n, d)
        · simp [hk]
        · rw [if_neg hk, progAccess_fst_apply, if_neg hk]
          exact h
      · simp only [hlt, if_false]
        rw [progAccess_fst_apply]
        by_cases hk : k = (n, d) <;> simp [hk, h]

theorem progTask_apply_creates (d : String) (m : Prog) (t : TaskDoc) (n : String)
    (hn : t.exerciseName = some n) (hne : n ≠ "") :
    ((progTask d m t) (n, d)).isSome := by
  unfold progTask
  rw [nameFalsy_false t n hn hne]
  simp only [Bool.false_eq_true, if_false, hn]
  by_cases hlt : (progAccess m (n, d)).2 < maxWeightForDay t.sets
  · simp [hlt, progAssign]
  · simp only [hlt, if_false]
    rw [progAccess_fst_apply, if_pos rfl]
    simp

theorem foldl_progTask_isSome (d : String) (ts : List TaskDoc) (m : Prog)
    (k : String × String) (h : (m k).isSome) :
    ((ts.foldl (progTask d) m) k).isSome := by
  induction ts generalizing m with
  | nil => simpa using h
  | cons t rest ih => exact ih _ (progTask_apply_isSome d m t k h)

theorem progWorkout_apply_isSome (m : Prog) (w : ProgressDoc) (k : String × String)
    (h : (m k).isSome) : ((progWorkout m w) k).isSome :=
  foldl_progTask_isSome w.date w.tasks m k h

theorem foldl_progWorkout_isSome (ws : List ProgressDoc) (m : Prog)
    (k : String × String) (h : (m k).isSome) :
    ((ws.foldl progWorkout m) k).isSome := by
  induction ws generalizing m with
  | nil => simpa using h
  | cons w rest ih => exact ih _ (progWorkout_apply_isSome m w k h)

theorem progWorkout_apply_creates (m : Prog) (w : ProgressDoc) (t : TaskDoc)
    (n : String) (ht : t ∈ w.tasks) (hn : t.exerciseName = some n) (hne : n ≠ "") :
    ((progWorkout m w) (n, w.date)).isSome := by
  obtain ⟨l1, l2, hsplit⟩ := List.append_of_mem ht
  unfold progWorkout
  rw [hsplit, List.foldl_append, List.foldl_cons]
  exact foldl_progTask_isSome w.date l2 _ _
    (progTask_apply_creates w.date _ t n hn hne)

/-- The weights scanned by the `max_weight_for_day` loop are all `≤ 0`, so the
running maximum stays at its nonpositive start value or below zero. -/
theorem maxWeight_foldl_nonpos (ss : List SetDoc) (a : ℚ) (ha : a ≤ 0)
    (h : ∀ s ∈ ss, ∀ q, pyFloat s.weightVal = some q → q ≤ 0) :
    ss.foldl
      (fun cur s =>
        match pyFloat s.weightVal with
        | none => cur
        | some w => max cur w) a ≤ 0 := by
  induction ss generalizing a with
  | nil => simpa using ha
  | cons s rest ih =>
    rw [List.foldl_cons]
    refine ih _ ?_ (fun s' hs' => h s' (List.mem_cons_of_mem s hs'))
    cases hw : pyFloat s.weightVal with
    | none => simpa using ha
    | some q =>
      have hq := h s (List.mem_cons_self _ _) q hw
      simp [max_le_iff, ha, hq]

theorem maxWeightForDay_nonpos (ss : List SetDoc)
    (h : ∀ s ∈ ss, ∀ q, pyFloat s.weightVal = some q → q ≤ 0) :
    maxWeightForDay ss ≤ 0 :=
  maxWeight_foldl_nonpos ss 0 le_rfl h

/-- The zero-or-absent invariant for a fixed key, preserved by one task step
whenever every task keyed at that key has nonpositive max weight. -/
theorem progTask_zero_inv (n d : String) (d' : String) (m : Prog) (t : TaskDoc)
    (hz : m (n, d) = none ∨ m (n, d) = some 0)
    (hmw : t.exerciseName = some n → d' = d → maxWeightForDay t.sets ≤ 0) :
    (progTask d' m t) (n, d) = none ∨ (progTask d' m t) (n, d) = some 0 := by
  by_cases hrel : ∃ n'', t.exerciseName = some n'' ∧ (n'', d') = (n, d)
  · obtain ⟨n'', hn'', hkey⟩ := hrel
    rw [Prod.mk.injEq] at hkey
    obtain ⟨h1, h2⟩ := hkey
    rw [h1] at hn''
    have hmw' := hmw hn'' h2
    rw [h2]
    unfold progTask
    cases hf : t.nameFalsy with
    | true => simpa using hz
    | false =>
      simp only [Bool.false_eq_true, if_false, hn'']
      have hcur : (progAccess m (n, d)).2 = 0 := by
        unfold progAccess
        rcases hz with hz | hz <;> simp [hz]
      have hlt : ¬((progAccess m (n, d)).2 < maxWeightForDay t.sets) := by
        rw [hcur]
        exact fun hc => absurd (lt_of_lt_of_le hc hmw') (lt_irrefl 0)
      simp only [hlt, if_false]
      rw [progAccess_fst_apply, if_pos rfl]
      right
      unfold progAccess
      rcases hz with hz | hz <;> simp [hz]
  · rw [progTask_apply_of_key_ne d' m t (n, d)
      (fun n'' hn'' he => hrel ⟨n'', hn'', he⟩)]
    exact hz

theorem foldl_progTask_zero_inv (n d : String) (d' : String) (ts : List TaskDoc)
    (m : Prog) (hz : m (n, d) = none ∨ m (n, d) = some 0)
    (hmw : ∀ t ∈ ts, t.exerciseName = some n → d' = d → maxWeightForDay t.sets ≤ 0) :
    (ts.foldl (progTask d') m) (n, d) = none
      ∨ (ts.foldl (progTask d') m) (n, d) = some 0 := by
  induction ts generalizing m with
  | nil => simpa using hz
  | cons t rest ih =>
    exact ih _ (progTask_zero_inv n d d' m t hz (hmw t (List.mem_cons_self _ _)))
      (fun t' ht' => hmw t' (List.mem_cons_of_mem t ht'))

theorem foldl_progWorkout_zero_inv (n d : String) (ws : List ProgressDoc)
    (m : Prog) (hz : m (n, d) = none ∨ m (n, d) = some 0)
    (hmw : ∀ w ∈ ws, w.date = d → ∀ t ∈ w.tasks, t.exerciseName = some n →
      maxWeightForDay t.sets ≤ 0) :
    (ws.foldl progWorkout m) (n, d) = none
      ∨ (ws.foldl progWorkout m) (n, d) = some 0 := by
  induction ws generalizing m with
  | nil => simpa using hz
  | cons w rest ih =>
    refine ih _ ?_ (fun w' hw' => hmw w' (List.mem_cons_of_mem w hw'))
    exact foldl_progTask_zero_inv n d w.date w.tasks m hz
      (fun t ht hn hd => hmw w (List.mem_cons_self _ _) hd t ht hn)

/-- C9 (implicit): every task with a non-empty `exercise_name` leaves an entry
in `exercise_progression` at `(exercise_name, workout date)`, and when no set
of any task for that (name, date) pair has a positive numeric weight, the
entry's recorded value is `0.0` rather than the date being omitted. -/
theorem progression_entry_exists_even_for_zero_weight
    (ws : List ProgressDoc) (w : ProgressDoc) (t : TaskDoc) (n : String)
    (hw : w ∈ ws) (ht : t ∈ w.tasks) (hn : t.exerciseName = some n)
    (hne : n ≠ "") :
    (∃ v, exerciseProgression ws (n, w.date) = some v)
  ∧ ((∀ w' ∈ ws, w'.date = w.date → ∀ t' ∈ w'.tasks, t'.exerciseName = some n →
        ∀ s ∈ t'.sets, ∀ q, pyFloat s.weightVal = some q → q ≤ 0) →
      exerciseProgression ws (n, w.date) = some 0) := by
  have hsome : (exerciseProgression ws (n, w.date)).isSome := by
    obtain ⟨l1, l2, hsplit⟩ := List.append_of_mem hw
    unfold exerciseProgression
    rw [hsplit, List.foldl_append, List.foldl_cons]
    exact foldl_progWorkout_isSome l2 _ _
      (progWorkout_apply_creates _ w t n ht hn hne)
  constructor
  · exact Option.isSome_iff_exists.mp hsome
  · intro hzero
    have hz := foldl_progWorkout_zero_inv n w.date ws (fun _ => none)
      (Or.inl rfl)
      (fun w' hw' hd t' ht' hn' =>
        maxWeightForDay_nonpos t'.sets (hzero w' hw' hd t' ht' hn'))
    rcases hz with hz | hz
    · have hz' : exerciseProgression ws (n, w.date) = none := hz
      rw [hz'] at hsome
      simp at hsome
    · exact hz

/-- Witness for C9: a single workout whose only task has one fresh set
(`weight_kg = ""`) yields the entry `("Bench Press", "2024-01-03") ↦ 0`. -/
theorem progression_entry_exists_even_for_zero_weight_witness :
    exerciseProgression
      [{ date := "2024-01-03",
         tasks := [c1Task 10 { c1Set 11 100 5 with
           weight_kg := some (PyVal.pstr "") }] }]
      ("Bench Press", "2024-01-03") = some 0 := by
  refine (progression_entry_exists_even_for_zero_weight
    [{ date := "2024-01-03",
       tasks := [c1Task 10 { c1Set 11 100 5 with
         weight_kg := some (PyVal.pstr "") }] }]
    _ (c1Task 10 { c1Set 11 100 5 with weight_kg := some (PyVal.pstr "") })
    "Bench Press" (List.mem_singleton.mpr rfl) ?_ ?_ ?_).2 ?_
  · simp [c1Task]
  · simp [c1Task]
  · simp
  · intro w' hw' hd t' ht' hn' s hs q hq
    simp only [List.mem_singleton] at hw'
    subst hw'
    simp only [List.mem_singleton] at ht'
    subst ht'
    simp only [c1Task, List.mem_singleton] at hs
    subst hs
    simp [SetDoc.weightVal, pyFloat, parseFloatStr, parseUFloat,
      parseNatDigits] at hq

/-! ## Workout-day documents and collection operations

For the planner mutations in `app.py` a `workout_days` document is modelled by
`DayDoc`.  Here the `date` field — always produced by `date.isoformat()` and
compared with `$gte`/`$lte` string ranges, which on equal-length ISO strings
agree with chronological order — is modelled by the date's ordinal.
`ObjectId()` generation is modelled by a counter threaded through the
operation; freshness of generated identifiers is a hypothesis of the theorems
(`ObjectId`s never collide with existing ones).

The MongoDB collection is a list of documents; `updateFirst` models
`update_one` / `find_one_and_update` (at most one document is updated; under
the at-most-one-per-key invariant which document is picked is immaterial).
-/

structure DayDoc where
  did : Nat
  userId : Nat
  date : Nat
  isRestDay : Bool
  title : String
  notes : String
  tasks : List TaskDoc
  deriving DecidableEq, Repr

/-- The (user, date) key of a workout-day document. -/
def dayKey (d : DayDoc) : Nat × Nat := (d.userId, d.date)

/-- Invariant: at most one `WorkoutDay` per (user, date). -/
def DupFree (coll : List DayDoc) : Prop := (coll.map dayKey).Nodup

/-- `update_one`: apply `f` to the first document satisfying `p`. -/
def updateFirst (p : α → Bool) (f : α → α) : List α → List α
  | [] => []
  | a :: l => if p a then f a :: l else a :: updateFirst p f l

/-- `delete_one`: remove the first document satisfying `p`. -/
def removeFirst (p : α → Bool) : List α → List α
  | [] => []
  | a :: l => if p a then l else a :: removeFirst p l

/-- The filter `{'user_id': uid, 'date': dateOrd}`. -/
def matchUD (uid dateOrd : Nat) (d : DayDoc) : Bool :=
  d.userId == uid && d.date == dateOrd

/-! ### `edit_workout_day` (`app.py` lines 295-333)

`find_one_and_update({'user_id', 'date'}, {'$set': update_data,
'$setOnInsert': {...}}, upsert=True)`.  `update_data` always contains
`is_rest_day` and `notes`, and contains `title` unless the date is a Sunday or
(`is_rest_day` and no title was given).  The `notes` path occurring in both
`$set` and `$setOnInsert` may make the server reject the update as conflicting,
in which case the broad `except` turns the operation into a no-op — which
preserves every invariant a fortiori; the model below is the intended upsert
with `$set` winning. -/

def editTitleUpdate (dateOrd : Nat) (isRest : Bool) (title : String) :
    Option String :=
  if weekday dateOrd ≠ 6 ∧ (isRest = false ∨ title ≠ "") then some title
  else none

def applyEditWorkoutDay (isRest : Bool) (notes : String) (titleUpd : Option String)
    (d : DayDoc) : DayDoc :=
  { d with isRestDay := isRest, notes := notes, title := titleUpd.getD d.title }

/-- The document inserted when the `edit_workout_day` upsert finds no match:
the filter's equality fields, the `$setOnInsert` defaults, and the `$set`
fields (an absent `title` is modelled as `""`). -/
def editInsertDoc (uid dateOrd : Nat) (isRest : Bool) (title notes : String)
    (freshId : Nat) : DayDoc :=
  { did := freshId, userId := uid, date := dateOrd, isRestDay := isRest,
    title := (editTitleUpdate dateOrd isRest title).getD "", notes := notes,
    tasks := [] }

def editWorkoutDay (coll : List DayDoc) (uid dateOrd : Nat) (isRest : Bool)
    (title notes : String) (freshId : Nat) : List DayDoc :=
  if coll.any (matchUD uid dateOrd) then
    updateFirst (matchUD uid dateOrd)
      (applyEditWorkoutDay isRest notes (editTitleUpdate dateOrd isRest title)) coll
  else
    coll ++ [editInsertDoc uid dateOrd isRest title notes freshId]

/-! ### `add_exercise_to_day` (`app.py` lines 504-556)

Upsert the day with `$setOnInsert` defaults (returning the document), then
`update_one({'_id': workout_day['_id']}, {'$push': {'tasks': new_task}})`. -/

/-- The list of fresh set documents built for `sets = numSets`
(`{"_id": ObjectId(), "set_number": i+1, "completed": False, "weight_kg": "",
"actual_reps": ""}`). -/
def newSetList (c numSets : Nat) : List SetDoc :=
  (List.range numSets).map
    (fun i => { sid := c + i, setNumber := i + 1, completed := false,
                weight_kg := some (PyVal.pstr ""), actual_reps := some (PyVal.pstr "") })

/-- The `new_task` document of `add_exercise_to_day`. -/
def mkNewTask (taskId eid : Nat) (ename targetReps restTime notes : String)
    (sets : List SetDoc) : TaskDoc :=
  { tid := taskId, exerciseId := eid, exerciseName := some ename,
    targetReps := targetReps, restTime := restTime, notes := notes,
    completed := none, sets := sets }

/-- The `$setOnInsert` document inserted by the `add_exercise_to_day` upsert. -/
def emptyDayDoc (uid dateOrd freshDayId : Nat) : DayDoc :=
  { did := freshDayId, userId := uid, date := dateOrd, isRestDay := false,
    title := "", notes := "", tasks := [] }

/-- `update_one({'_id': did0}, {'$push': {'tasks': new_task}})`. -/
def pushTaskToDay (coll : List DayDoc) (did0 : Nat) (newTask : TaskDoc) :
    List DayDoc :=
  updateFirst (fun d => d.did == did0)
    (fun d => { d with tasks := d.tasks ++ [newTask] }) coll

def addExerciseToDay (coll : List DayDoc) (uid dateOrd : Nat) (newTask : TaskDoc)
    (freshDayId : Nat) : List DayDoc :=
  let coll1 :=
    if coll.any (matchUD uid dateOrd) then coll
    else coll ++ [emptyDayDoc uid dateOrd freshDayId]
  match coll1.find? (matchUD uid dateOrd) with
  | none => coll1
  | some wd => pushTaskToDay coll1 wd.did newTask

/-! ### The copy transformation shared by `copy_day` and `copy_last_week`

```python
for task in new_workout.get('tasks', []):
    task['_id'] = ObjectId()
    for set_item in task.get('sets', []):
        set_item['_id'] = ObjectId()
        set_item['completed'] = False
```

Each task gets a fresh `_id` and each set a fresh `_id` and `completed = False`;
every other field — including a task-level `completed` flag written by the
`/toggle-task` endpoint — is carried over unchanged.  Fresh `ObjectId`s are the
values `c, c+1, …` of the threaded counter. -/

def copySets : List SetDoc → Nat → List SetDoc × Nat
  | [], c => ([], c)
  | s :: rest, c =>
    let r := copySets rest (c + 1)
    ({ s with sid := c, completed := false } :: r.1, r.2)

def copyTasks : List TaskDoc → Nat → List TaskDoc × Nat
  | [], c => ([], c)
  | t :: rest, c =>
    let ss := copySets t.sets (c + 1)
    let r := copyTasks rest ss.2
    ({ t with tid := c, sets := ss.1 } :: r.1, r.2)

/-! ### `copy_day` (`app.py` lines 619-670)

Fetch the source day by `_id` and user; refuse when it has no tasks; otherwise
build the copy (same fields, target date, freshened task/set tree) and
`find_one_and_replace({'user_id', 'date': target}, new_data, upsert=True)` —
replacement keeps the matched document's `_id`, insertion gets a fresh one. -/

/-- The post-fetch part of `copy_day`: refuse when the source has no tasks,
else build the copy and replace-upsert it at `(uid, targetDate)`. -/
def copyDayReplace (coll : List DayDoc) (uid targetDate fresh : Nat)
    (src : DayDoc) : List DayDoc :=
  if src.tasks.isEmpty then coll
  else
    let ts := copyTasks src.tasks fresh
    let newData : DayDoc := { src with date := targetDate, tasks := ts.1 }
    if coll.any (matchUD uid targetDate) then
      updateFirst (matchUD uid targetDate)
        (fun old => { newData with did := old.did }) coll
    else
      coll ++ [{ newData with did := ts.2 }]

def copyDayOp (coll : List DayDoc) (uid srcId targetDate fresh : Nat) :
    List DayDoc :=
  match coll.find? (fun d => d.did == srcId && d.userId == uid) with
  | none => coll
  | some src => copyDayReplace coll uid targetDate fresh src

/-! ### `copy_last_week` (`app.py` lines 558-617)

Fetch last week's days (`[cws-7, cws-1]`), bail out if none; delete this
week's days (`[cws, cws+6]`) for the user; re-insert last week's days advanced
by 7 days with freshened task/set trees and fresh document ids. -/

def copyWorkouts : List DayDoc → Nat → List DayDoc × Nat
  | [], c => ([], c)
  | d :: rest, c =>
    let ts := copyTasks d.tasks (c + 1)
    let r := copyWorkouts rest ts.2
    ({ d with did := c, date := d.date + 7, tasks := ts.1 } :: r.1, r.2)

/-- `last_week_workouts`: the user's days with date in `[cws-7, cws-1]`. -/
def lastWeekDocs (coll : List DayDoc) (uid cws : Nat) : List DayDoc :=
  coll.filter
    (fun d => d.userId == uid && decide (cws - 7 ≤ d.date) && decide (d.date ≤ cws - 1))

/-- `delete_many`: drop the user's days with date in `[cws, cws+6]`. -/
def clearCurrentWeek (coll : List DayDoc) (uid cws : Nat) : List DayDoc :=
  coll.filter
    (fun d => !(d.userId == uid && decide (cws ≤ d.date) && decide (d.date ≤ cws + 6)))

def copyLastWeekOp (coll : List DayDoc) (uid cws fresh : Nat) : List DayDoc :=
  if (lastWeekDocs coll uid cws).isEmpty then coll
  else
    clearCurrentWeek coll uid cws ++ (copyWorkouts (lastWeekDocs coll uid cws) fresh).1

/-! ## C2: what the copy transformation does to `completed` flags

The source day below has its only task marked completed (`/toggle-task` wrote
`completed: True` on the task) and its only set marked completed.  The copy
loop resets the set's flag and regenerates all identifiers, but carries the
task-level `completed` flag over unchanged — contrary to the comments above it
(`# Reset completion status …`, `# 3. Reset all task and set IDs and
completion status`). -/

def c2SrcTasks : List TaskDoc :=
  [{ tid := 1, exerciseId := 5, exerciseName := some "Bench Press",
     targetReps := "5", restTime := "", notes := "", completed := some true,
     sets := [{ sid := 2, setNumber := 1, completed := true,
                weight_kg := some (PyVal.pstr "100"),
                actual_reps := some (PyVal.pstr "5") }] }]

def c2Src : DayDoc :=
  { did := 1, userId := 7, date := 100, isRestDay := false, title := "Push",
    notes := "", tasks := c2SrcTasks }

/-- The collection after copying `c2Src` (document id 1, user 7) to date 200
with fresh ObjectIds 10, 11, …. -/
def c2Result : List DayDoc := copyDayOp [c2Src] 7 1 200 10

/-- C2 (code bug): in the day produced by `copy_day` (second document below)
and by `copy_last_week`, all set-level `completed` flags are `false` and all
task/set ids are fresh, but a task-level `completed: true` flag of the source
survives into the copy, so not every `completed` flag in the copy is false. -/
theorem copy_keeps_task_level_completed_flag :
    c2Result.map (fun d => d.tasks.map TaskDoc.completed) = [[some true], [some true]]
  ∧ c2Result.map (fun d => d.tasks.flatMap (fun t => t.sets.map SetDoc.completed))
      = [[true], [false]]
  ∧ c2Result.map (fun d => d.tasks.map TaskDoc.tid) = [[1], [10]]
  ∧ c2Result.map (fun d => d.tasks.flatMap (fun t => t.sets.map SetDoc.sid))
      = [[2], [11]]
  ∧ (copyLastWeekOp [c2Src] 7 107 10).map (fun d => d.tasks.map TaskDoc.completed)
      = [[some true], [some true]] := by
  decide

/-! ## C4: at most one WorkoutDay per (user, date) -/

theorem map_dayKey_updateFirst (p : DayDoc → Bool) (f : DayDoc → DayDoc)
    (h : ∀ d, p d = true → dayKey (f d) = dayKey d) (l : List DayDoc) :
    (updateFirst p f l).map dayKey = l.map dayKey := by
  induction l with
  | nil => rfl
  | cons a l ih =>
    unfold updateFirst
    cases hp : p a with
    | true => simp [h a hp]
    | false => simp [ih]

theorem DupFree_updateFirst (p : DayDoc → Bool) (f : DayDoc → DayDoc)
    (h : ∀ d, p d = true → dayKey (f d) = dayKey d) (l : List DayDoc)
    (hl : DupFree l) : DupFree (updateFirst p f l) := by
  unfold DupFree
  rw [map_dayKey_updateFirst p f h l]
  exact hl

theorem notMem_key_of_any_matchUD_false (coll : List DayDoc) (uid dt : Nat)
    (h : coll.any (matchUD uid dt) = false) : (uid, dt) ∉ coll.map dayKey := by
  intro hmem
  obtain ⟨d, hd, hkey⟩ := List.mem_map.mp hmem
  have := List.any_eq_false.mp h d hd
  apply this
  unfold matchUD
  unfold dayKey at hkey
  rw [Prod.mk.injEq] at hkey
  simp [hkey.1.symm, hkey.2.symm]

theorem DupFree_append_singleton (l : List DayDoc) (d : DayDoc)
    (h : dayKey d ∉ l.map dayKey) (hl : DupFree l) : DupFree (l ++ [d]) := by
  unfold DupFree
  rw [List.map_append]
  rw [List.nodup_append]
  refine ⟨hl, List.nodup_singleton _, ?_⟩
  intro k hk hk'
  simp only [List.map_cons, List.map_nil, List.mem_singleton] at hk'
  exact h (hk' ▸ hk)

theorem DupFree_editWorkoutDay (coll : List DayDoc) (uid dateOrd : Nat)
    (isRest : Bool) (title notes : String) (freshId : Nat)
    (h : DupFree coll) :
    DupFree (editWorkoutDay coll uid dateOrd isRest title notes freshId) := by
  unfold editWorkoutDay
  cases ha : coll.any (matchUD uid dateOrd) with
  | true =>
    show DupFree (updateFirst (matchUD uid dateOrd)
      (applyEditWorkoutDay isRest notes (editTitleUpdate dateOrd isRest title)) coll)
    apply DupFree_updateFirst
    · exact fun d _ => rfl
    · exact h
  | false =>
    show DupFree (coll ++ [editInsertDoc uid dateOrd isRest title notes freshId])
    exact DupFree_append_singleton coll _
      (notMem_key_of_any_matchUD_false coll uid dateOrd ha) h

theorem DupFree_addExerciseToDay (coll : List DayDoc) (uid dateOrd : Nat)
    (newTask : TaskDoc) (freshDayId : Nat) (h : DupFree coll) :
    DupFree (addExerciseToDay coll uid dateOrd newTask freshDayId) := by
  have hpush : ∀ (l : List DayDoc) (did0 : Nat), DupFree l →
      DupFree (pushTaskToDay l did0 newTask) := by
    intro l did0 hl
    apply DupFree_updateFirst
    · exact fun d _ => rfl
    · exact hl
  unfold addExerciseToDay
  cases ha : coll.any (matchUD uid dateOrd) with
  | true =>
    show DupFree (match coll.find? (matchUD uid dateOrd) with
      | none => coll
      | some wd => pushTaskToDay coll wd.did newTask)
    cases hf : coll.find? (matchUD uid dateOrd) with
    | none => exact h
    | some wd => exact hpush coll wd.did h
  | false =>
    have h1 : DupFree (coll ++ [emptyDayDoc uid dateOrd freshDayId]) :=
      DupFree_append_singleton coll _
        (notMem_key_of_any_matchUD_false coll uid dateOrd ha) h
    show DupFree (match (coll ++ [emptyDayDoc uid dateOrd freshDayId]).find?
        (matchUD uid dateOrd) with
      | none => coll ++ [emptyDayDoc uid dateOrd freshDayId]
      | some wd => pushTaskToDay (coll ++ [emptyDayDoc uid dateOrd freshDayId]) wd.did newTask)
    cases hf : (coll ++ [emptyDayDoc uid dateOrd freshDayId]).find?
        (matchUD uid dateOrd) with
    | none => exact h1
    | some wd => exact hpush _ wd.did h1

theorem DupFree_copyDayOp (coll : List DayDoc) (uid srcId targetDate fresh : Nat)
    (h : DupFree coll) : DupFree (copyDayOp coll uid srcId targetDate fresh) := by
  have hrep : ∀ src : DayDoc, src.userId = uid →
      DupFree (copyDayReplace coll uid targetDate fresh src) := by
    intro src hsrc
    unfold copyDayReplace
    cases he : src.tasks.isEmpty with
    | true => simpa using h
    | false =>
      simp only [Bool.false_eq_true, if_false]
      cases ha : coll.any (matchUD uid targetDate) with
      | true =>
        simp only [if_true]
        apply DupFree_updateFirst
        · intro d hd
          unfold matchUD at hd
          rw [Bool.and_eq_true, beq_iff_eq, beq_iff_eq] at hd
          unfold dayKey
          simp [hsrc, hd.1, hd.2]
        · exact h
      | false =>
        simp only [Bool.false_eq_true, if_false]
        refine DupFree_append_singleton coll _ ?_ h
        have hkey : ∀ dd : DayDoc, dd.userId = uid → dd.date = targetDate →
            dayKey dd ∉ coll.map dayKey := by
          intro dd h1 h2
          unfold dayKey
          rw [h1, h2]
          exact notMem_key_of_any_matchUD_false coll uid targetDate ha
        exact hkey _ hsrc rfl
  unfold copyDayOp
  cases hf : coll.find? (fun d => d.did == srcId && d.userId == uid) with
  | none => exact h
  | some src =>
    have hsrc : src.userId = uid := by
      have hp := List.find?_some hf
      rw [Bool.and_eq_true, beq_iff_eq, beq_iff_eq] at hp
      exact hp.2
    exact hrep src hsrc

theorem map_dayKey_copyWorkouts (l : List DayDoc) (c : Nat) :
    (copyWorkouts l c).1.map dayKey
      = (l.map dayKey).map (fun k => (k.1, k.2 + 7)) := by
  induction l generalizing c with
  | nil => rfl
  | cons d rest ih =>
    unfold copyWorkouts
    simp only [List.map_cons]
    rw [ih]
    rfl

theorem DupFree_copyLastWeekOp (coll : List DayDoc) (uid cws fresh : Nat)
    (h7 : 7 ≤ cws) (h : DupFree coll) :
    DupFree (copyLastWeekOp coll uid cws fresh) := by
  unfold copyLastWeekOp
  cases hemp : (lastWeekDocs coll uid cws).isEmpty with
  | true => simpa using h
  | false =>
    simp only [Bool.false_eq_true, if_false]
    unfold DupFree
    rw [List.map_append, List.nodup_append]
    have hsub1 : List.Sublist ((clearCurrentWeek coll uid cws).map dayKey)
        (coll.map dayKey) := (List.filter_sublist coll).map dayKey
    have hsub2 : List.Sublist ((lastWeekDocs coll uid cws).map dayKey)
        (coll.map dayKey) := (List.filter_sublist coll).map dayKey
    refine ⟨hsub1.nodup h, ?_, ?_⟩
    · rw [map_dayKey_copyWorkouts]
      refine List.Nodup.map ?_ (hsub2.nodup h)
      intro a b hab
      rw [Prod.mk.injEq] at hab
      exact Prod.ext hab.1 (Nat.add_right_cancel hab.2)
    · intro k hk hk'
      rw [map_dayKey_copyWorkouts] at hk'
      obtain ⟨d1, hd1, hk1⟩ := List.mem_map.mp hk
      obtain ⟨k2, hk2, hkk⟩ := List.mem_map.mp hk'
      obtain ⟨d2, hd2, hk2'⟩ := List.mem_map.mp hk2
      unfold clearCurrentWeek at hd1
      unfold lastWeekDocs at hd2
      rw [List.mem_filter] at hd1 hd2
      have hb1 := hd1.2
      have hb2 := hd2.2
      simp only [Bool.not_eq_true', Bool.and_eq_false_iff,
        beq_eq_false_iff_ne, decide_eq_false_iff_not] at hb1
      simp only [Bool.and_eq_true, beq_iff_eq, decide_eq_true_eq] at hb2
      subst hk1
      rw [← hk2'] at hkk
      unfold dayKey at hkk
      rw [Prod.mk.injEq] at hkk
      obtain ⟨⟨hu2, hl2⟩, hr2⟩ := hb2
      rcases hb1 with (hb1 | hb1) | hb1
      · exact hb1 (hkk.1.symm ▸ hu2)
      · exact hb1 (by omega)
      · exact hb1 (by omega)

/-- C4: every mutating operation on workout days preserves the invariant that
at most one WorkoutDay document exists per (user, date): the
`edit-workout-day` upsert, the `add-exercise` upsert, the `copy-day`
replace-upsert, and the `copy-last-week` delete-then-insert (the latter for
any week start on/after ordinal 7, i.e. any representable date). -/
theorem workout_day_unique_per_user_date_preserved :
    (∀ (coll : List DayDoc) (uid dateOrd : Nat) (isRest : Bool)
        (title notes : String) (freshId : Nat), DupFree coll →
        DupFree (editWorkoutDay coll uid dateOrd isRest title notes freshId))
  ∧ (∀ (coll : List DayDoc) (uid dateOrd : Nat) (newTask : TaskDoc)
        (freshDayId : Nat), DupFree coll →
        DupFree (addExerciseToDay coll uid dateOrd newTask freshDayId))
  ∧ (∀ (coll : List DayDoc) (uid srcId targetDate fresh : Nat), DupFree coll →
        DupFree (copyDayOp coll uid srcId targetDate fresh))
  ∧ (∀ (coll : List DayDoc) (uid cws fresh : Nat), 7 ≤ cws → DupFree coll →
        DupFree (copyLastWeekOp coll uid cws fresh)) :=
  ⟨fun coll uid dateOrd isRest title notes freshId h =>
      DupFree_editWorkoutDay coll uid dateOrd isRest title notes freshId h,
    fun coll uid dateOrd newTask freshDayId h =>
      DupFree_addExerciseToDay coll uid dateOrd newTask freshDayId h,
    fun coll uid srcId targetDate fresh h =>
      DupFree_copyDayOp coll uid srcId targetDate fresh h,
    fun coll uid cws fresh h7 h =>
      DupFree_copyLastWeekOp coll uid cws fresh h7 h⟩

/-- Witness for C4: the four operations applied to a concrete one-document
collection keep the invariant. -/
theorem workout_day_unique_per_user_date_preserved_witness :
    DupFree (editWorkoutDay [c2Src] 7 100 true "Legs" "note" 50)
  ∧ DupFree (addExerciseToDay [c2Src] 7 101 (mkNewTask 60 5 "Squat" "5" "" "" (newSetList 61 3)) 70)
  ∧ DupFree (copyDayOp [c2Src] 7 1 200 10)
  ∧ DupFree (copyLastWeekOp [c2Src] 7 107 10) := by
  refine ⟨workout_day_unique_per_user_date_preserved.1 _ _ _ _ _ _ _ ?_,
    workout_day_unique_per_user_date_preserved.2.1 _ _ _ _ _ ?_,
    workout_day_unique_per_user_date_preserved.2.2.1 _ _ _ _ _ ?_,
    workout_day_unique_per_user_date_preserved.2.2.2 _ _ _ _ (by decide) ?_⟩
  all_goals unfold DupFree
  all_goals decide

/-! ## C3: the monthly calendar grid (`monthly_handler.get_monthly_plan_context`)

```python
first_day_of_month = date(selected_year, selected_month, 1)
start_of_calendar = first_day_of_month - timedelta(days=first_day_of_month.weekday())
calendar_weeks = []
current_day = start_of_calendar
for _ in range(6):
    week = []
    for _ in range(7):
        week.append(current_day)
        current_day += timedelta(days=1)
    calendar_weeks.append(week)
```
-/

/-- `date(y, m, 1).toordinal()`. -/
def firstOfMonth (y m : Nat) : Nat := toOrdinal y m 1

/-- `start_of_calendar`: the Monday on or before the first of the month. -/
def startOfCalendar (y m : Nat) : Nat :=
  firstOfMonth y m - weekday (firstOfMonth y m)

/-- The grid-building loop: `n` weeks of 7 consecutive days starting at
`cur`. -/
def buildWeeks : Nat → Nat → List (List Nat)
  | _, 0 => []
  | cur, n + 1 => ((List.range 7).map (fun i => cur + i)) :: buildWeeks (cur + 7) n

/-- `calendar_weeks` as returned by `get_monthly_plan_context`. -/
def calendarWeeks (y m : Nat) : List (List Nat) :=
  buildWeeks (startOfCalendar y m) 6

theorem buildWeeks_flatten (n cur : Nat) :
    (buildWeeks cur n).flatten = (List.range (7 * n)).map (fun i => cur + i) := by
  induction n generalizing cur with
  | zero => rfl
  | succ k ih =>
    show (((List.range 7).map (fun i => cur + i)) :: buildWeeks (cur + 7) k).flatten = _
    rw [List.flatten_cons, ih (cur + 7)]
    have h7 : 7 * (k + 1) = 7 + 7 * k := by ring
    rw [h7, List.range_add, List.map_append, List.map_map]
    congr 1
    apply List.map_congr_left
    intro i _
    simp [Function.comp]
    omega

theorem buildWeeks_length (n cur : Nat) : (buildWeeks cur n).length = n := by
  induction n generalizing cur with
  | zero => rfl
  | succ k ih =>
    show (((List.range 7).map (fun i => cur + i)) :: buildWeeks (cur + 7) k).length = _
    rw [List.length_cons, ih (cur + 7)]

theorem buildWeeks_week_length (n cur : Nat) :
    ∀ wk ∈ buildWeeks cur n, wk.length = 7 := by
  induction n generalizing cur with
  | zero => intro wk hwk; cases hwk
  | succ k ih =>
    intro wk hwk
    rcases List.mem_cons.mp hwk with h | h
    · subst h; simp
    · exact ih (cur + 7) wk h

theorem range42_map_getD (a i : Nat) (h : i < 42) :
    ((List.range 42).map (fun j => a + j)).getD i 0 = a + i := by
  rw [List.getD_eq_getElem?_getD, List.getElem?_map, List.getElem?_range h]
  rfl

/-- C3: for every (year, month), the calendar grid has exactly 6 weeks of 7
days each — 42 date cells in total —, the first cell is the Monday on or
before the first of the month, and each subsequent cell is exactly one day
after its predecessor (so leading/trailing cells may fall in adjacent
months). -/
theorem monthly_grid_six_weeks_of_seven_days (y m : Nat) :
    (calendarWeeks y m).length = 6
  ∧ (∀ wk ∈ calendarWeeks y m, wk.length = 7)
  ∧ (calendarWeeks y m).flatten.length = 42
  ∧ (calendarWeeks y m).flatten.getD 0 0 = startOfCalendar y m
  ∧ (∀ i, i + 1 < 42 →
      (calendarWeeks y m).flatten.getD (i + 1) 0
        = (calendarWeeks y m).flatten.getD i 0 + 1)
  ∧ weekday (startOfCalendar y m) = 0
  ∧ startOfCalendar y m ≤ firstOfMonth y m
  ∧ firstOfMonth y m < startOfCalendar y m + 7 := by
  have hflat := buildWeeks_flatten 6 (startOfCalendar y m)
  have ho : 1 ≤ firstOfMonth y m := by
    unfold firstOfMonth toOrdinal
    omega
  have hw : weekday (firstOfMonth y m) = (firstOfMonth y m - 1) % 7 := rfl
  have hwlt : (firstOfMonth y m - 1) % 7 < 7 := Nat.mod_lt _ (by norm_num)
  have hwle : (firstOfMonth y m - 1) % 7 ≤ firstOfMonth y m - 1 := Nat.mod_le _ _
  refine ⟨buildWeeks_length 6 _, buildWeeks_week_length 6 _, ?_, ?_, ?_, ?_, ?_, ?_⟩
  · rw [show calendarWeeks y m = buildWeeks (startOfCalendar y m) 6 from rfl, hflat]
    simp
  · rw [show calendarWeeks y m = buildWeeks (startOfCalendar y m) 6 from rfl, hflat]
    exact range42_map_getD _ 0 (by norm_num)
  · intro i hi
    rw [show calendarWeeks y m = buildWeeks (startOfCalendar y m) 6 from rfl, hflat,
      range42_map_getD _ (i + 1) hi, range42_map_getD _ i (by omega)]
    omega
  · show (startOfCalendar y m - 1) % 7 = 0
    unfold startOfCalendar
    rw [hw]
    omega
  · unfold startOfCalendar
    omega
  · unfold startOfCalendar
    rw [hw]
    omega

/-- Witness for C3: the grid for February 2024 at concrete cells. -/
theorem monthly_grid_six_weeks_of_seven_days_witness :
    (∀ wk ∈ calendarWeeks 2024 2, wk.length = 7)
  ∧ (calendarWeeks 2024 2).flatten.getD 1 0
      = (calendarWeeks 2024 2).flatten.getD 0 0 + 1 :=
  ⟨(monthly_grid_six_weeks_of_seven_days 2024 2).2.1,
    (monthly_grid_six_weeks_of_seven_days 2024 2).2.2.2.2.1 0 (by norm_num)⟩

/-! ## C5: `set_exercise_goal` (`goal_setting_handler.py` lines 63-82)

```python
goals_collection.update_one(
    {'user_id': user['_id'], 'exercise_id': ObjectId(exercise_id)},
    {'$set': {'goal_weight_kg': float(goal_weight)}},
    upsert=True)
```

For valid inputs (both form fields present and the weight parses via
`float`), this upserts on the (user, exercise) key; the parsed weight is the
`w : ℚ` argument below. -/

structure GoalDoc where
  userId : Nat
  exerciseId : Nat
  goalWeight : ℚ
  deriving DecidableEq, Repr

def matchGoal (uid eid : Nat) (g : GoalDoc) : Bool :=
  g.userId == uid && g.exerciseId == eid

def setExerciseGoal (coll : List GoalDoc) (uid eid : Nat) (w : ℚ) : List GoalDoc :=
  if coll.any (matchGoal uid eid) then
    updateFirst (matchGoal uid eid) (fun g => { g with goalWeight := w }) coll
  else
    coll ++ [{ userId := uid, exerciseId := eid, goalWeight := w }]

theorem countP_updateFirst (p : α → Bool) (f : α → α)
    (h : ∀ a, p a = true → p (f a) = true) (l : List α) :
    (updateFirst p f l).countP p = l.countP p := by
  induction l with
  | nil => rfl
  | cons a l ih =>
    unfold updateFirst
    cases hp : p a with
    | true =>
      simp only [if_true]
      rw [List.countP_cons, List.countP_cons, hp, h a hp]
    | false =>
      simp only [Bool.false_eq_true, if_false]
      rw [List.countP_cons, List.countP_cons, hp, ih]

theorem mem_updateFirst_of_countP_le_one (p : α → Bool) (f : α → α)
    (l : List α) (hc : l.countP p ≤ 1) :
    ∀ a ∈ updateFirst p f l, p a = true → ∃ b, p b = true ∧ a = f b := by
  induction l with
  | nil => intro a ha; cases ha
  | cons x l ih =>
    intro a ha hpa
    unfold updateFirst at ha
    cases hp : p x with
    | true =>
      rw [hp] at ha
      simp only [if_true] at ha
      rcases List.mem_cons.mp ha with h | h
      · exact ⟨x, hp, h⟩
      · exfalso
        have h0 : l.countP p = 0 := by
          rw [List.countP_cons, hp] at hc
          simp only [if_true] at hc
          omega
        exact List.countP_eq_zero.mp h0 a h hpa
    | false =>
      rw [hp] at ha
      simp only [Bool.false_eq_true, if_false] at ha
      rcases List.mem_cons.mp ha with h | h
      · rw [h, hp] at hpa
        simp at hpa
      · refine ih ?_ a h hpa
        rw [List.countP_cons, hp] at hc
        simp only [Bool.false_eq_true, if_false] at hc
        omega

theorem countP_setExerciseGoal (coll : List GoalDoc) (uid eid : Nat) (w : ℚ)
    (hc : coll.countP (matchGoal uid eid) ≤ 1) :
    (setExerciseGoal coll uid eid w).countP (matchGoal uid eid) = 1 := by
  unfold setExerciseGoal
  cases ha : coll.any (matchGoal uid eid) with
  | true =>
    simp only [if_true]
    rw [countP_updateFirst (matchGoal uid eid)
      (fun g => { g with goalWeight := w }) (fun a h => h) coll]
    obtain ⟨g, hg, hpg⟩ := List.any_eq_true.mp ha
    have : 0 < coll.countP (matchGoal uid eid) :=
      List.countP_pos_iff.mpr ⟨g, hg, hpg⟩
    omega
  | false =>
    simp only [Bool.false_eq_true, if_false]
    rw [List.countP_append]
    have h0 : coll.countP (matchGoal uid eid) = 0 :=
      List.countP_eq_zero.mpr (List.any_eq_false.mp ha)
    rw [h0]
    simp [matchGoal]

/-- C5: invoking the set-goal operation twice for the pair (U, E), starting
from a collection with at most one record for that pair, leaves exactly one
goal record for the pair, and its stored weight is the one supplied by the
later invocation. -/
theorem set_goal_twice_overwrites (coll : List GoalDoc) (uid eid : Nat)
    (w1 w2 : ℚ) (hc : coll.countP (matchGoal uid eid) ≤ 1) :
    (setExerciseGoal (setExerciseGoal coll uid eid w1) uid eid w2).countP
        (matchGoal uid eid) = 1
  ∧ ∀ g ∈ setExerciseGoal (setExerciseGoal coll uid eid w1) uid eid w2,
      matchGoal uid eid g = true → g.goalWeight = w2 := by
  have h1 : (setExerciseGoal coll uid eid w1).countP (matchGoal uid eid) = 1 :=
    countP_setExerciseGoal coll uid eid w1 hc
  have h2 : (setExerciseGoal (setExerciseGoal coll uid eid w1) uid eid w2).countP
      (matchGoal uid eid) = 1 :=
    countP_setExerciseGoal _ uid eid w2 (by omega)
  refine ⟨h2, ?_⟩
  intro g hg hpg
  have hany : (setExerciseGoal coll uid eid w1).any (matchGoal uid eid) = true := by
    rw [List.any_eq_true]
    have : 0 < (setExerciseGoal coll uid eid w1).countP (matchGoal uid eid) := by
      omega
    exact List.countP_pos_iff.mp this
  rw [setExerciseGoal, if_pos hany] at hg
  obtain ⟨b, _, hb⟩ := mem_updateFirst_of_countP_le_one (matchGoal uid eid)
    (fun g' => { g' with goalWeight := w2 }) _ (by omega) g hg hpg
  rw [hb]

/-- Witness for C5: two goal settings for (user 1, exercise 2) on an empty
collection leave one record with the later weight 60. -/
theorem set_goal_twice_overwrites_witness :
    (setExerciseGoal (setExerciseGoal [] 1 2 50) 1 2 60).countP (matchGoal 1 2) = 1
  ∧ ∀ g ∈ setExerciseGoal (setExerciseGoal [] 1 2 50) 1 2 60,
      matchGoal 1 2 g = true → g.goalWeight = 60 :=
  set_goal_twice_overwrites [] 1 2 50 60 (by decide)

/-! ## C6 / C10: `delete_exercise_from_library` (`exercise_handler.py` lines 74-93)

```python
is_in_use = workout_days_collection.find_one({'tasks.exercise_id': obj_exercise_id})
if is_in_use:
    flash('Cannot delete this exercise ...', 'danger')
    return
exercises_collection.delete_one({'_id': obj_exercise_id})
goals_collection.delete_many({'exercise_id': obj_exercise_id})
flash('Exercise deleted successfully.', 'success')
```

The whole application state (all five collections) is threaded through so that
the frame of the operation is visible.  The returned `Bool` is `true` for the
success flash and `false` for the blocking danger flash. -/

structure ExerciseDoc where
  eid : Nat
  name : String
  muscleGroup : String
  deriving DecidableEq, Repr

structure AppState where
  users : List Nat
  exercises : List ExerciseDoc
  workoutDays : List DayDoc
  goals : List GoalDoc
  dietEntries : List Nat
  deriving DecidableEq, Repr

/-- `find_one({'tasks.exercise_id': eid})` is truthy: some day has a task
referencing the exercise. -/
def exerciseInUse (days : List DayDoc) (eid : Nat) : Bool :=
  days.any (fun d => d.tasks.any (fun t => t.exerciseId == eid))

def deleteExerciseFromLibrary (st : AppState) (eid : Nat) : AppState × Bool :=
  if exerciseInUse st.workoutDays eid then (st, false)
  else
    ({ st with
        exercises := removeFirst (fun e => e.eid == eid) st.exercises,
        goals := st.goals.filter (fun g => !(g.exerciseId == eid)) }, true)

theorem mem_removeFirst_of_not_p (p : α → Bool) (l : List α) (a : α)
    (ha : a ∈ l) (hpa : p a = false) : a ∈ removeFirst p l := by
  induction l with
  | nil => cases ha
  | cons x l ih =>
    unfold removeFirst
    cases hp : p x with
    | true =>
      simp only [if_true]
      rcases List.mem_cons.mp ha with h | h
      · rw [h] at hpa
        rw [hp] at hpa
        cases hpa
      · exact h
    | false =>
      simp only [Bool.false_eq_true, if_false]
      rcases List.mem_cons.mp ha with h | h
      · exact h ▸ List.mem_cons_self _ _
      · exact List.mem_cons_of_mem x (ih h)

theorem removeFirst_no_match_of_nodup_keys (f : α → Nat) (k : Nat) (l : List α)
    (hnd : (l.map f).Nodup) :
    ∀ a ∈ removeFirst (fun x => f x == k) l, f a ≠ k := by
  induction l with
  | nil => intro a ha; cases ha
  | cons x l ih =>
    rw [List.map_cons, List.nodup_cons] at hnd
    intro a ha
    unfold removeFirst at ha
    cases hp : (f x == k) with
    | true =>
      rw [hp] at ha
      simp only [if_true] at ha
      intro hak
      have hxk : f x = k := by
        have := hp
        rwa [beq_iff_eq] at this
      exact hnd.1 (hxk ▸ hak ▸ List.mem_map_of_mem f ha)
    | false =>
      rw [hp] at ha
      simp only [Bool.false_eq_true, if_false] at ha
      rcases List.mem_cons.mp ha with h | h
      · rw [h]
        intro hxk
        rw [← beq_iff_eq (a := f x) (b := k)] at hxk
        rw [hp] at hxk
        cases hxk
      · exact ih hnd.2 a h

/-- C6: if the exercise is referenced by any task of any workout day, the
delete-exercise operation fails with the danger notice and leaves the whole
state — in particular the exercise catalog — unchanged; if it is unreferenced
(and catalog ids are unique), the exercise record is removed, every other
exercise is kept, and the success notice is shown. -/
theorem delete_exercise_blocked_when_referenced (st : AppState) (eid : Nat) :
    (exerciseInUse st.workoutDays eid = true →
      deleteExerciseFromLibrary st eid = (st, false))
  ∧ (exerciseInUse st.workoutDays eid = false →
      (st.exercises.map ExerciseDoc.eid).Nodup →
        (∀ e ∈ (deleteExerciseFromLibrary st eid).1.exercises, e.eid ≠ eid)
      ∧ (∀ e ∈ st.exercises, e.eid ≠ eid →
          e ∈ (deleteExerciseFromLibrary st eid).1.exercises)
      ∧ (deleteExerciseFromLibrary st eid).2 = true) := by
  constructor
  · intro h
    unfold deleteExerciseFromLibrary
    rw [h]
    simp
  · intro h hnd
    unfold deleteExerciseFromLibrary
    rw [h]
    simp only [Bool.false_eq_true, if_false]
    refine ⟨?_, ?_, by trivial⟩
    · exact removeFirst_no_match_of_nodup_keys ExerciseDoc.eid eid st.exercises hnd
    · intro e he hne
      apply mem_removeFirst_of_not_p
      · exact he
      · rw [beq_eq_false_iff_ne]
        exact hne

/-- Witness for C6: with `c2Src` referencing exercise 5, deleting exercise 5
is blocked; deleting the unreferenced exercise 9 removes it. -/
theorem delete_exercise_blocked_when_referenced_witness :
    deleteExerciseFromLibrary
      { users := [7], exercises := [⟨5, "Bench Press", "Chest"⟩],
        workoutDays := [c2Src], goals := [], dietEntries := [] } 5
      = ({ users := [7], exercises := [⟨5, "Bench Press", "Chest"⟩],
           workoutDays := [c2Src], goals := [], dietEntries := [] }, false)
  ∧ (∀ e ∈ (deleteExerciseFromLibrary
        { users := [7], exercises := [⟨9, "Squat", "Legs"⟩],
          workoutDays := [c2Src], goals := [], dietEntries := [] } 9).1.exercises,
        e.eid ≠ 9) :=
  ⟨(delete_exercise_blocked_when_referenced _ 5).1 (by decide),
    ((delete_exercise_blocked_when_referenced _ 9).2 (by decide) (by decide)).1⟩

/-- C10 (implicit): when the delete succeeds (exercise unreferenced), every
goal record referencing that exercise is deleted across all users, every other
goal survives, and the users / workout-days / diet-entries collections are
untouched. -/
theorem delete_exercise_cascades_goals_and_frame (st : AppState) (eid : Nat)
    (h : exerciseInUse st.workoutDays eid = false) :
    (∀ g ∈ (deleteExerciseFromLibrary st eid).1.goals, g.exerciseId ≠ eid)
  ∧ (∀ g ∈ (deleteExerciseFromLibrary st eid).1.goals, g ∈ st.goals)
  ∧ (∀ g ∈ st.goals, g.exerciseId ≠ eid →
      g ∈ (deleteExerciseFromLibrary st eid).1.goals)
  ∧ (deleteExerciseFromLibrary st eid).1.users = st.users
  ∧ (deleteExerciseFromLibrary st eid).1.workoutDays = st.workoutDays
  ∧ (deleteExerciseFromLibrary st eid).1.dietEntries = st.dietEntries := by
  unfold deleteExerciseFromLibrary
  rw [h]
  simp only [Bool.false_eq_true, if_false]
  refine ⟨?_, ?_, ?_, by trivial, by trivial, by trivial⟩
  · intro g hg
    have := (List.mem_filter.mp hg).2
    simp only [Bool.not_eq_true', beq_eq_false_iff_ne] at this
    exact this
  · intro g hg
    exact (List.mem_filter.mp hg).1
  · intro g hg hne
    refine List.mem_filter.mpr ⟨hg, ?_⟩
    simp only [Bool.not_eq_true', beq_eq_false_iff_ne]
    exact hne

/-- Witness for C10: deleting unreferenced exercise 9 removes its goal for
both users 7 and 8 but keeps the goal for exercise 5, and leaves the other
collections unchanged. -/
theorem delete_exercise_cascades_goals_and_frame_witness :
    (∀ g ∈ (deleteExerciseFromLibrary
        { users := [7, 8], exercises := [⟨9, "Squat", "Legs"⟩],
          workoutDays := [c2Src],
          goals := [⟨7, 9, 100⟩, ⟨8, 9, 90⟩, ⟨7, 5, 80⟩],
          dietEntries := [3] } 9).1.goals, g.exerciseId ≠ 9)
  ∧ (deleteExerciseFromLibrary
        { users := [7, 8], exercises := [⟨9, "Squat", "Legs"⟩],
          workoutDays := [c2Src],
          goals := [⟨7, 9, 100⟩, ⟨8, 9, 90⟩, ⟨7, 5, 80⟩],
          dietEntries := [3] } 9).1.workoutDays = [c2Src] :=
  ⟨(delete_exercise_cascades_goals_and_frame _ 9 (by decide)).1,
    (delete_exercise_cascades_goals_and_frame _ 9 (by decide)).2.2.2.2.1⟩

/-! ## C7: the toggle-set / toggle-task / delete-task JSON endpoints

Each endpoint first validates its JSON payload
(`if not all([...]): return {'status': 'error', ...}, 400`), runs a targeted
`update_one`, and returns `200/'success'` when `modified_count > 0` and
`404/'error'` otherwise.  A field is modelled as `none` when it is missing or
falsy (`None`, `''`), the case `all(...)` rejects; `is_completed` must be an
actual `bool`, hence `Option Bool`.  The update filter is
`{'_id': workout_day_id, 'user_id': user['_id']}`; when it matches no
document, `modified_count = 0` and the endpoint answers 404.  The collection
after the call is `updateFirst` of the match (unchanged when the update is a
no-op). -/

inductive JsonStatus where
  | success
  | error
  | info
  deriving DecidableEq, Repr

/-- The `$set` on `tasks.$[task].sets.$[set].completed` with
`array_filters=[{'task._id': tid}, {'set._id': sid}]`. -/
def applyToggleSet (tid sid : Nat) (b : Bool) (d : DayDoc) : DayDoc :=
  { d with tasks := d.tasks.map (fun t =>
      if t.tid == tid then
        { t with sets := t.sets.map (fun s =>
            if s.sid == sid then { s with completed := b } else s) }
      else t) }

/-- The `$set` on `tasks.$[elem].completed` with
`array_filters=[{'elem._id': tid}]`. -/
def applyToggleTask (tid : Nat) (b : Bool) (d : DayDoc) : DayDoc :=
  { d with tasks := d.tasks.map (fun t =>
      if t.tid == tid then { t with completed := some b } else t) }

/-- The `$pull` of `{'tasks': {'_id': tid}}`. -/
def applyDeleteTask (tid : Nat) (d : DayDoc) : DayDoc :=
  { d with tasks := d.tasks.filter (fun t => !(t.tid == tid)) }

/-- Shared endpoint core: run the update `f` targeted at document
`(did, uid)`, answer 200/success iff it modified the document. -/
def runTargetedUpdate (uid did : Nat) (f : DayDoc → DayDoc)
    (coll : List DayDoc) : (Nat × JsonStatus) × List DayDoc :=
  match coll.find? (fun d => d.did == did && d.userId == uid) with
  | none => ((404, JsonStatus.error), coll)
  | some d =>
    let coll' := updateFirst (fun d' => d'.did == did && d'.userId == uid) f coll
    if f d = d then ((404, JsonStatus.error), coll')
    else ((200, JsonStatus.success), coll')

/-- `/toggle-set` (`app.py` lines 335-361). -/
def toggleSetEndpoint (uid : Nat) (workoutDayId taskId setId : Option Nat)
    (isCompleted : Option Bool) (coll : List DayDoc) :
    (Nat × JsonStatus) × List DayDoc :=
  match workoutDayId, taskId, setId, isCompleted with
  | some did, some tid, some sid, some b =>
    runTargetedUpdate uid did (applyToggleSet tid sid b) coll
  | _, _, _, _ => ((400, JsonStatus.error), coll)

/-- `/toggle-task` (`app.py` lines 479-502). -/
def toggleTaskEndpoint (uid : Nat) (workoutDayId taskId : Option Nat)
    (isCompleted : Option Bool) (coll : List DayDoc) :
    (Nat × JsonStatus) × List DayDoc :=
  match workoutDayId, taskId, isCompleted with
  | some did, some tid, some b =>
    runTargetedUpdate uid did (applyToggleTask tid b) coll
  | _, _, _ => ((400, JsonStatus.error), coll)

/-- `/delete-task` (`app.py` lines 363-383). -/
def deleteTaskEndpoint (uid : Nat) (workoutDayId taskId : Option Nat)
    (coll : List DayDoc) : (Nat × JsonStatus) × List DayDoc :=
  match workoutDayId, taskId with
  | some did, some tid =>
    runTargetedUpdate uid did (applyDeleteTask tid) coll
  | _, _ => ((400, JsonStatus.error), coll)

theorem runTargetedUpdate_404_of_no_match (uid did : Nat) (f : DayDoc → DayDoc)
    (coll : List DayDoc)
    (h : coll.find? (fun d => d.did == did && d.userId == uid) = none) :
    runTargetedUpdate uid did f coll = ((404, JsonStatus.error), coll) := by
  unfold runTargetedUpdate
  rw [h]

/-- C7: for each of the three JSON endpoints, a request whose targeted update
matches zero documents (no workout day with the given id belongs to the user)
yields HTTP 404 with an error status and leaves the collection unchanged,
while a request with a missing/falsy required field yields HTTP 400 — two
distinct responses. -/
theorem json_endpoints_distinguish_404_from_400 :
    (∀ (uid : Nat) (w t s : Option Nat) (b : Option Bool) (coll : List DayDoc),
        w = none ∨ t = none ∨ s = none ∨ b = none →
        toggleSetEndpoint uid w t s b coll = ((400, JsonStatus.error), coll))
  ∧ (∀ (uid did tid sid : Nat) (b : Bool) (coll : List DayDoc),
        coll.find? (fun d => d.did == did && d.userId == uid) = none →
        toggleSetEndpoint uid (some did) (some tid) (some sid) (some b) coll
          = ((404, JsonStatus.error), coll))
  ∧ (∀ (uid : Nat) (w t : Option Nat) (b : Option Bool) (coll : List DayDoc),
        w = none ∨ t = none ∨ b = none →
        toggleTaskEndpoint uid w t b coll = ((400, JsonStatus.error), coll))
  ∧ (∀ (uid did tid : Nat) (b : Bool) (coll : List DayDoc),
        coll.find? (fun d => d.did == did && d.userId == uid) = none →
        toggleTaskEndpoint uid (some did) (some tid) (some b) coll
          = ((404, JsonStatus.error), coll))
  ∧ (∀ (uid : Nat) (w t : Option Nat) (coll : List DayDoc),
        w = none ∨ t = none →
        deleteTaskEndpoint uid w t coll = ((400, JsonStatus.error), coll))
  ∧ (∀ (uid did tid : Nat) (coll : List DayDoc),
        coll.find? (fun d => d.did == did && d.userId == uid) = none →
        deleteTaskEndpoint uid (some did) (some tid) coll
          = ((404, JsonStatus.error), coll))
  ∧ ((404, JsonStatus.error) ≠ ((400, JsonStatus.error) : Nat × JsonStatus)) := by
  refine ⟨?_, ?_, ?_, ?_, ?_, ?_, by decide⟩
  · intro uid w t s b coll h
    cases w <;> cases t <;> cases s <;> cases b <;>
      simp_all [toggleSetEndpoint]
  · intro uid did tid sid b coll h
    unfold toggleSetEndpoint
    exact runTargetedUpdate_404_of_no_match uid did _ coll h
  · intro uid w t b coll h
    cases w <;> cases t <;> cases b <;>
      simp_all [toggleTaskEndpoint]
  · intro uid did tid b coll h
    unfold toggleTaskEndpoint
    exact runTargetedUpdate_404_of_no_match uid did _ coll h
  · intro uid w t coll h
    cases w <;> cases t <;>
      simp_all [deleteTaskEndpoint]
  · intro uid did tid coll h
    unfold deleteTaskEndpoint
    exact runTargetedUpdate_404_of_no_match uid did _ coll h

/-- Witness for C7: a missing-field request gets 400, a request targeting a
collection without the document gets 404. -/
theorem json_endpoints_distinguish_404_from_400_witness :
    toggleSetEndpoint 7 none (some 1) (some 2) (some true) [c2Src]
      = ((400, JsonStatus.error), [c2Src])
  ∧ toggleSetEndpoint 7 (some 99) (some 1) (some 2) (some true) [c2Src]
      = ((404, JsonStatus.error), [c2Src])
  ∧ toggleTaskEndpoint 7 (some 99) (some 1) (some true) [c2Src]
      = ((404, JsonStatus.error), [c2Src])
  ∧ deleteTaskEndpoint 7 (some 99) (some 1) [c2Src]
      = ((404, JsonStatus.error), [c2Src]) :=
  ⟨json_endpoints_distinguish_404_from_400.1 7 none (some 1) (some 2) (some true)
      [c2Src] (Or.inl rfl),
    json_endpoints_distinguish_404_from_400.2.1 7 99 1 2 true [c2Src] (by decide),
    json_endpoints_distinguish_404_from_400.2.2.2.1 7 99 1 true [c2Src] (by decide),
    json_endpoints_distinguish_404_from_400.2.2.2.2.2.1 7 99 1 [c2Src] (by decide)⟩

end GymPlanner
